import Mathlib

/-!
Verification of the gmail-mcp tool server (`src/index.ts`) against its
natural-language specification.

Modelling conventions (shallow embedding):
* JavaScript strings are modelled as `List Nat` of their UTF-16 code units /
  UTF-8 bytes (for the ASCII fragment these coincide); `asc` converts a Lean
  string literal to that representation.  Where no byte-level computation is
  needed (tool names, label ids, error messages) plain `String` is used.
* `Buffer.from(s).toString("base64")` is modelled by `b64encPad` over the
  byte list; `Buffer.from(d, "base64")` (Node's forgiving decoder, which on
  padding-free input consumes groups of four characters and a trailing group
  of two or three) is modelled by `b64dec`.
* JavaScript truthiness of an optional string is `≠ ""`; of an optional
  number it is `≠ 0`.
-/

/-- Code units of an ASCII string literal, as natural numbers. -/
def asc (s : String) : List Nat := s.toList.map Char.toNat

/-- All entries are bytes (the invariant of byte-list inputs). -/
def allBytes (l : List Nat) : Prop := ∀ b ∈ l, b < 256

instance (l : List Nat) : Decidable (allBytes l) := by
  unfold allBytes; infer_instance

/-! ### Base64 (Node `Buffer` semantics used by `createRawMessage` / `decodeBase64`) -/

/-- The standard base64 alphabet, as ASCII codes. -/
def b64alpha : List Nat :=
  asc "ABCDEFGHIJKLMNOPQRSTUVWXYZabcdefghijklmnopqrstuvwxyz0123456789+/"

/-- Sextet to base64 character (ASCII code). -/
def b64enc (n : Nat) : Nat := b64alpha.getD n 0

/-- Base64 character back to sextet (index in the alphabet). -/
def b64inv (c : Nat) : Nat := b64alpha.indexOf c

/-- `Buffer.toString("base64")`: padded base64 of a byte list. -/
def b64encPad : List Nat → List Nat
  | [] => []
  | [b1] => [b64enc (b1 / 4), b64enc (b1 % 4 * 16), 61, 61]
  | [b1, b2] => [b64enc (b1 / 4), b64enc (b1 % 4 * 16 + b2 / 16), b64enc (b2 % 16 * 4), 61]
  | b1 :: b2 :: b3 :: rest =>
      b64enc (b1 / 4) :: b64enc (b1 % 4 * 16 + b2 / 16) ::
      b64enc (b2 % 16 * 4 + b3 / 64) :: b64enc (b3 % 64) :: b64encPad rest

/-- Unpadded base64 of a byte list (what remains after stripping `=`). -/
def b64encNoPad : List Nat → List Nat
  | [] => []
  | [b1] => [b64enc (b1 / 4), b64enc (b1 % 4 * 16)]
  | [b1, b2] => [b64enc (b1 / 4), b64enc (b1 % 4 * 16 + b2 / 16), b64enc (b2 % 16 * 4)]
  | b1 :: b2 :: b3 :: rest =>
      b64enc (b1 / 4) :: b64enc (b1 % 4 * 16 + b2 / 16) ::
      b64enc (b2 % 16 * 4 + b3 / 64) :: b64enc (b3 % 64) :: b64encNoPad rest

/-- Node's base64 decoder on padding-free input: groups of four characters
yield three bytes, a final group of two or three yields one or two bytes. -/
def b64dec : List Nat → List Nat
  | c1 :: c2 :: c3 :: c4 :: rest =>
      (b64inv c1 * 4 + b64inv c2 / 16) :: (b64inv c2 % 16 * 16 + b64inv c3 / 4) ::
      (b64inv c3 % 4 * 64 + b64inv c4) :: b64dec rest
  | [c1, c2] => [b64inv c1 * 4 + b64inv c2 / 16]
  | [c1, c2, c3] => [b64inv c1 * 4 + b64inv c2 / 16, b64inv c2 % 16 * 16 + b64inv c3 / 4]
  | _ => []

/-- `.replace(/\+/g, "-").replace(/\//g, "_")` on a single character. -/
def plusToDash (c : Nat) : Nat := if c = 43 then 45 else if c = 47 then 95 else c

/-- The reverse replacements (dash to plus, underscore to slash) performed by
`decodeBase64`, on a single character. -/
def dashToPlus (c : Nat) : Nat := if c = 45 then 43 else if c = 95 then 47 else c

/-- `.replace(/=+$/, "")`: strip trailing `=` (ASCII 61). -/
def stripEq (l : List Nat) : List Nat := (l.reverse.dropWhile (fun c => c == 61)).reverse

/-- Source `decodeBase64` (src/index.ts:622-624): undo the URL-safe character
replacements, then base64-decode.  (The final `toString("utf-8")` is the
identity under the byte-list view of strings.) -/
def decodeBase64 (s : List Nat) : List Nat := b64dec (s.map dashToPlus)

/-- Sextets are mapped injectively into the alphabet. -/
theorem b64inv_b64enc : ∀ n, n < 64 → b64inv (b64enc n) = n := by decide

/-- Alphabet characters survive the URL-safe replacement round trip. -/
theorem dashToPlus_plusToDash : ∀ n, n < 64 →
    dashToPlus (plusToDash (b64enc n)) = b64enc n := by decide

/-- Alphabet characters are never `=`. -/
theorem b64enc_ne_eq : ∀ n, n < 64 → b64enc n ≠ 61 := by decide

theorem b64encNoPad_ne_nil : ∀ (b : Nat) (l : List Nat), b64encNoPad (b :: l) ≠ [] := by
  intro b l
  match l with
  | [] => simp [b64encNoPad]
  | [b2] => simp [b64encNoPad]
  | b2 :: b3 :: rest => simp [b64encNoPad]

theorem stripEq_append_eqs (a : List Nat) (k : Nat) :
    stripEq (a ++ List.replicate k 61) = stripEq a := by
  unfold stripEq
  rw [List.reverse_append, List.dropWhile_append_of_pos]
  intro c hc
  rw [List.mem_reverse] at hc
  simp [List.eq_of_mem_replicate hc]

theorem stripEq_of_ne_eq (a : List Nat) (h : ∀ c ∈ a, c ≠ 61) : stripEq a = a := by
  unfold stripEq
  have hd : a.reverse.dropWhile (fun c => c == 61) = a.reverse := by
    match hr : a.reverse with
    | [] => rfl
    | c :: t =>
      have hc : c ∈ a := by
        rw [← List.mem_reverse, hr]; exact List.mem_cons_self _ _
      rw [List.dropWhile_cons_of_neg]
      simpa using h c hc
  rw [hd, List.reverse_reverse]

theorem stripEq_append_of_ne (a b : List Nat) (hb : stripEq b ≠ []) :
    stripEq (a ++ b) = a ++ stripEq b := by
  unfold stripEq at *
  rw [List.reverse_append, List.dropWhile_append]
  split
  · rename_i he
    exfalso
    apply hb
    simp only [List.isEmpty_iff] at he
    rw [he, List.reverse_nil]
  · rw [List.reverse_append, List.reverse_reverse]

/-- Every character emitted by the unpadded encoder is `b64enc` of a sextet. -/
theorem b64encNoPad_mem (l : List Nat) (hl : allBytes l) :
    ∀ c ∈ b64encNoPad l, ∃ s, s < 64 ∧ c = b64enc s := by
  match l with
  | [] => intro c hc; simp [b64encNoPad] at hc
  | [b1] =>
    have h1 : b1 < 256 := hl b1 (by simp)
    intro c hc
    simp only [b64encNoPad, List.mem_cons, List.mem_singleton, List.not_mem_nil] at hc
    rcases hc with h | h | h
    · exact ⟨b1 / 4, by omega, h⟩
    · exact ⟨b1 % 4 * 16, by omega, h⟩
    · exact absurd h (by simp)
  | [b1, b2] =>
    have h1 : b1 < 256 := hl b1 (by simp)
    have h2 : b2 < 256 := hl b2 (by simp)
    intro c hc
    simp only [b64encNoPad, List.mem_cons, List.not_mem_nil] at hc
    rcases hc with h | h | h | h
    · exact ⟨b1 / 4, by omega, h⟩
    · exact ⟨b1 % 4 * 16 + b2 / 16, by omega, h⟩
    · exact ⟨b2 % 16 * 4, by omega, h⟩
    · exact absurd h (by simp)
  | b1 :: b2 :: b3 :: rest =>
    have h1 : b1 < 256 := hl b1 (by simp)
    have h2 : b2 < 256 := hl b2 (by simp)
    have h3 : b3 < 256 := hl b3 (by simp)
    have hr : allBytes rest := by
      intro b hb; exact hl b (by simp [hb])
    intro c hc
    simp only [b64encNoPad, List.mem_cons] at hc
    rcases hc with h | h | h | h | h
    · exact ⟨b1 / 4, by omega, h⟩
    · exact ⟨b1 % 4 * 16 + b2 / 16, by omega, h⟩
    · exact ⟨b2 % 16 * 4 + b3 / 64, by omega, h⟩
    · exact ⟨b3 % 64, by omega, h⟩
    · exact b64encNoPad_mem rest hr c h

/-- Stripping the `=` padding from padded base64 yields the unpadded form. -/
theorem stripEq_b64encPad (l : List Nat) (hl : allBytes l) :
    stripEq (b64encPad l) = b64encNoPad l := by
  match l with
  | [] => rfl
  | [b1] =>
    have h1 : b1 < 256 := hl b1 (by simp)
    show stripEq ([b64enc (b1 / 4), b64enc (b1 % 4 * 16)] ++ List.replicate 2 61) = _
    rw [stripEq_append_eqs, stripEq_of_ne_eq]
    · rfl
    · intro c hc
      simp only [List.mem_cons, List.mem_singleton, List.not_mem_nil] at hc
      rcases hc with h | h | h
      · exact h ▸ b64enc_ne_eq _ (by omega)
      · exact h ▸ b64enc_ne_eq _ (by omega)
      · exact absurd h (by simp)
  | [b1, b2] =>
    have h1 : b1 < 256 := hl b1 (by simp)
    have h2 : b2 < 256 := hl b2 (by simp)
    show stripEq ([b64enc (b1 / 4), b64enc (b1 % 4 * 16 + b2 / 16), b64enc (b2 % 16 * 4)]
      ++ List.replicate 1 61) = _
    rw [stripEq_append_eqs, stripEq_of_ne_eq]
    · rfl
    · intro c hc
      simp only [List.mem_cons, List.mem_singleton, List.not_mem_nil] at hc
      rcases hc with h | h | h | h
      · exact h ▸ b64enc_ne_eq _ (by omega)
      · exact h ▸ b64enc_ne_eq _ (by omega)
      · exact h ▸ b64enc_ne_eq _ (by omega)
      · exact absurd h (by simp)
  | b1 :: b2 :: b3 :: rest =>
    have h1 : b1 < 256 := hl b1 (by simp)
    have h2 : b2 < 256 := hl b2 (by simp)
    have h3 : b3 < 256 := hl b3 (by simp)
    have hr : allBytes rest := by
      intro b hb; exact hl b (by simp [hb])
    show stripEq ([b64enc (b1 / 4), b64enc (b1 % 4 * 16 + b2 / 16),
        b64enc (b2 % 16 * 4 + b3 / 64), b64enc (b3 % 64)] ++ b64encPad rest) = _
    match rest with
    | [] =>
      rw [show b64encPad ([] : List Nat) = [] from rfl, List.append_nil]
      rw [stripEq_of_ne_eq]
      · rfl
      · intro c hc
        simp only [List.mem_cons, List.mem_singleton, List.not_mem_nil] at hc
        rcases hc with h | h | h | h | h
        · exact h ▸ b64enc_ne_eq _ (by omega)
        · exact h ▸ b64enc_ne_eq _ (by omega)
        · exact h ▸ b64enc_ne_eq _ (by omega)
        · exact h ▸ b64enc_ne_eq _ (by omega)
        · exact absurd h (by simp)
    | r1 :: rrest =>
      have hind := stripEq_b64encPad (r1 :: rrest) hr
      rw [stripEq_append_of_ne, hind]
      · rfl
      · rw [hind]
        exact b64encNoPad_ne_nil r1 rrest

/-- Decoding inverts the unpadded encoder on byte lists. -/
theorem b64dec_b64encNoPad (l : List Nat) (hl : allBytes l) :
    b64dec (b64encNoPad l) = l := by
  match l with
  | [] => rfl
  | [b1] =>
    have h1 : b1 < 256 := hl b1 (by simp)
    show b64dec [b64enc (b1 / 4), b64enc (b1 % 4 * 16)] = [b1]
    rw [b64dec]
    rw [b64inv_b64enc _ (by omega), b64inv_b64enc _ (by omega)]
    congr 1
    omega
  | [b1, b2] =>
    have h1 : b1 < 256 := hl b1 (by simp)
    have h2 : b2 < 256 := hl b2 (by simp)
    show b64dec [b64enc (b1 / 4), b64enc (b1 % 4 * 16 + b2 / 16), b64enc (b2 % 16 * 4)]
      = [b1, b2]
    rw [b64dec]
    rw [b64inv_b64enc _ (by omega), b64inv_b64enc _ (by omega), b64inv_b64enc _ (by omega)]
    congr 1
    · omega
    · congr 1
      omega
  | b1 :: b2 :: b3 :: rest =>
    have h1 : b1 < 256 := hl b1 (by simp)
    have h2 : b2 < 256 := hl b2 (by simp)
    have h3 : b3 < 256 := hl b3 (by simp)
    have hr : allBytes rest := by
      intro b hb; exact hl b (by simp [hb])
    show b64dec (b64enc (b1 / 4) :: b64enc (b1 % 4 * 16 + b2 / 16) ::
        b64enc (b2 % 16 * 4 + b3 / 64) :: b64enc (b3 % 64) :: b64encNoPad rest)
      = b1 :: b2 :: b3 :: rest
    rw [b64dec]
    rw [b64inv_b64enc _ (by omega), b64inv_b64enc _ (by omega),
        b64inv_b64enc _ (by omega), b64inv_b64enc _ (by omega)]
    rw [b64dec_b64encNoPad rest hr]
    congr 1
    · omega
    · congr 1
      · omega
      · congr 1
        omega

/-- The two URL-safe character replacements cancel on encoder output. -/
theorem map_dashToPlus_plusToDash (l : List Nat) (hl : allBytes l) :
    ((b64encNoPad l).map plusToDash).map dashToPlus = b64encNoPad l := by
  rw [List.map_map]
  conv_rhs => rw [← List.map_id (b64encNoPad l)]
  apply List.map_congr_left
  intro c hc
  obtain ⟨s, hs, rfl⟩ := b64encNoPad_mem l hl c hc
  simpa using dashToPlus_plusToDash s hs

/-- Stripping trailing `=` commutes with the URL-safe replacements
(which never produce or consume `=`). -/
theorem stripEq_map_plusToDash (x : List Nat) :
    stripEq (x.map plusToDash) = (stripEq x).map plusToDash := by
  have hp : ((fun c : Nat => c == 61) ∘ plusToDash) = (fun c : Nat => c == 61) := by
    funext c
    simp only [Function.comp_apply, plusToDash]
    split
    · rename_i h; subst h; rfl
    · split
      · rename_i h; subst h; rfl
      · rfl
  unfold stripEq
  rw [← List.map_reverse, List.dropWhile_map, hp, List.map_reverse]

/-- Core round trip: `decodeBase64` inverts the URL-safe unpadded base64
encoding performed by `createRawMessage`, on every byte list. -/
theorem decodeBase64_encode (m : List Nat) (hm : allBytes m) :
    decodeBase64 (stripEq ((b64encPad m).map plusToDash)) = m := by
  rw [stripEq_map_plusToDash, stripEq_b64encPad m hm]
  unfold decodeBase64
  rw [map_dashToPlus_plusToDash m hm]
  exact b64dec_b64encNoPad m hm


/-! ### `createRawMessage` (src/index.ts:653-669) -/

/-- JavaScript truthiness of an optional string argument (`if (cc) ...`):
present and non-empty. -/
def optTruthy (o : Option (List Nat)) : Bool := !(o.getD []).isEmpty

/-- `Array.prototype.join("\r\n")` on a list of strings (byte lists). -/
def joinCRLF : List (List Nat) → List Nat
  | [] => []
  | [l] => l
  | l :: ls => l ++ [13, 10] ++ joinCRLF ls

/-- The header lines pushed by `createRawMessage` before the blank line and
body: `To`, `Subject`, `Content-Type` always, then `Cc` / `Bcc` /
`References` / `In-Reply-To` when the argument is truthy.  (`toAddr` stands
for the source's `to` parameter, which is a reserved word in Lean.) -/
def rawHeaderLines (toAddr subject : List Nat)
    (cc bcc references inReplyTo : Option (List Nat)) : List (List Nat) :=
  [asc "To: " ++ toAddr, asc "Subject: " ++ subject,
   asc "Content-Type: text/plain; charset=utf-8"]
  ++ (if optTruthy cc then [asc "Cc: " ++ cc.getD []] else [])
  ++ (if optTruthy bcc then [asc "Bcc: " ++ bcc.getD []] else [])
  ++ (if optTruthy references then [asc "References: " ++ references.getD []] else [])
  ++ (if optTruthy inReplyTo then [asc "In-Reply-To: " ++ inReplyTo.getD []] else [])

/-- The CRLF-joined message text built by `createRawMessage` (header lines,
an empty line, then the body). -/
def rawMessageText (toAddr subject body : List Nat)
    (cc bcc references inReplyTo : Option (List Nat)) : List Nat :=
  joinCRLF (rawHeaderLines toAddr subject cc bcc references inReplyTo ++ [[], body])

/-- Source `createRawMessage`: build the header lines, append an empty line
and the body, join with CRLF, base64-encode, apply the URL-safe character
replacements, and strip trailing `=`.  The `threadId` parameter is accepted
and ignored, as in the source. -/
def createRawMessage (toAddr subject body : List Nat)
    (cc bcc threadId references inReplyTo : Option (List Nat)) : List Nat :=
  let _ := threadId
  stripEq ((b64encPad (rawMessageText toAddr subject body cc bcc references inReplyTo)).map
    plusToDash)

/-! ### Parsing the decoded message back (vocabulary of claim C2) -/

/-- Split a byte sequence at the first blank line (first occurrence of
CRLFCRLF), returning the part before it and the part after it. -/
def splitAtBlank (l : List Nat) : Option (List Nat × List Nat) :=
  match l with
  | [] => none
  | b :: rest =>
    if (b :: rest).take 4 = [13, 10, 13, 10] then some ([], rest.drop 3)
    else (splitAtBlank rest).map (fun p => (b :: p.1, p.2))

/-- `true` iff CRLFCRLF occurs nowhere in the list. -/
def noBlank (l : List Nat) : Bool :=
  match l with
  | [] => true
  | _ :: rest => decide (l.take 4 ≠ [13, 10, 13, 10]) && noBlank rest

/-- A byte list free of CR and LF. -/
def crlfFree (l : List Nat) : Prop := ∀ b ∈ l, b ≠ 13 ∧ b ≠ 10

instance (l : List Nat) : Decidable (crlfFree l) := by
  unfold crlfFree; infer_instance

theorem noBlank_cons_of_ne (b : Nat) (rest : List Nat) (hb : b ≠ 13) :
    noBlank (b :: rest) = noBlank rest := by
  rw [noBlank]
  rw [List.take_succ_cons]
  simp [hb]

theorem noBlank_append_of_crfree (l m : List Nat) (hl : ∀ b ∈ l, b ≠ 13) :
    noBlank (l ++ m) = noBlank m := by
  match l with
  | [] => rfl
  | b :: l' =>
    rw [List.cons_append, noBlank_cons_of_ne b _ (hl b (by simp))]
    exact noBlank_append_of_crfree l' m (fun b hb => hl b (by simp [hb]))

theorem noBlank_crlf_cons (c : Nat) (xs : List Nat) (hc : c ≠ 13) :
    noBlank (13 :: 10 :: c :: xs) = noBlank (c :: xs) := by
  rw [noBlank]
  rw [noBlank_cons_of_ne 10 _ (by omega)]
  rw [List.take_succ_cons, List.take_succ_cons, List.take_succ_cons]
  simp [hc]

theorem joinCRLF_single (l : List Nat) : joinCRLF [l] = l := rfl

theorem joinCRLF_cons_cons (l l2 : List Nat) (rest : List (List Nat)) :
    joinCRLF (l :: l2 :: rest) = l ++ [13, 10] ++ joinCRLF (l2 :: rest) := rfl

theorem noBlank_tail (b : Nat) (z : List Nat) (h : noBlank (b :: z) = true) :
    noBlank z = true := by
  rw [noBlank] at h
  simp only [Bool.and_eq_true] at h
  exact h.2

/-- The first CRLFCRLF in `x ++ CRLFCRLF ++ rest` is the explicit one,
provided `x` contains no blank line and does not end in CRLF. -/
theorem splitAtBlank_append (x rest : List Nat)
    (hx : noBlank (x ++ [13, 10, 13]) = true) :
    splitAtBlank (x ++ 13 :: 10 :: 13 :: 10 :: rest) = some (x, rest) := by
  match x with
  | [] =>
    show splitAtBlank (13 :: 10 :: 13 :: 10 :: rest) = some ([], rest)
    rw [splitAtBlank]
    simp
  | b :: x' =>
    have htail : noBlank (x' ++ [13, 10, 13]) = true := by
      rw [List.cons_append] at hx
      exact noBlank_tail _ _ hx
    have hne : ¬ ((b :: (x' ++ 13 :: 10 :: 13 :: 10 :: rest)).take 4 = [13, 10, 13, 10]) := by
      match x' with
      | [] =>
        intro h
        simp [List.take_succ_cons] at h
      | [a] =>
        intro h
        simp [List.take_succ_cons] at h
        obtain ⟨hb, ha⟩ := h
        subst hb; subst ha
        exact absurd hx (by decide)
      | [a, a2] =>
        intro h
        simp [List.take_succ_cons] at h
      | a :: a2 :: a3 :: x'' =>
        intro h
        simp [List.take_succ_cons] at h
        obtain ⟨hb, ha, ha2, ha3⟩ := h
        subst hb; subst ha; subst ha2; subst ha3
        rw [List.cons_append, List.cons_append, List.cons_append, List.cons_append,
            noBlank] at hx
        simp [List.take_succ_cons] at hx
    rw [List.cons_append, splitAtBlank, if_neg hne,
        splitAtBlank_append x' rest htail]
    rfl

/-- A CRLF-join of non-empty CR/LF-free lines, followed by CRLF CR, contains
no blank line. -/
theorem noBlank_joinCRLF (lines : List (List Nat)) (hL : lines ≠ [])
    (h : ∀ l ∈ lines, l ≠ [] ∧ crlfFree l) :
    noBlank (joinCRLF lines ++ [13, 10, 13]) = true := by
  match lines with
  | [l] =>
    rw [joinCRLF_single, noBlank_append_of_crfree]
    · decide
    · intro b hb
      exact ((h l (by simp)).2 b hb).1
  | l :: l2 :: rest =>
    obtain ⟨hl2ne, hl2free⟩ := h l2 (by simp)
    match hl2 : l2 with
    | [] => exact absurd rfl hl2ne
    | c :: t =>
      subst hl2
      have hc : c ≠ 13 := (hl2free c (by simp)).1
      have hjoin : ∃ z, joinCRLF ((c :: t) :: rest) = c :: z := by
        match rest with
        | [] => exact ⟨t, by rw [joinCRLF_single]⟩
        | r :: rs =>
          refine ⟨t ++ [13, 10] ++ joinCRLF (r :: rs), ?_⟩
          rw [joinCRLF_cons_cons]
          simp
      obtain ⟨z, hz⟩ := hjoin
      rw [joinCRLF_cons_cons, List.append_assoc, List.append_assoc,
          noBlank_append_of_crfree]
      · rw [← List.append_assoc, hz]
        show noBlank (13 :: 10 :: (c :: z) ++ [13, 10, 13]) = true
        rw [List.cons_append, List.cons_append, List.cons_append,
            noBlank_crlf_cons c _ hc, ← List.cons_append]
        rw [← hz]
        exact noBlank_joinCRLF ((c :: t) :: rest) (by simp) (fun x hx => h x (by simp at hx ⊢; tauto))
      · intro b hb
        exact ((h l (by simp)).2 b hb).1

/-- Appending the blank line and the body to the header lines before the
CRLF-join is the same as joining the header lines and appending CRLFCRLF
and the body. -/
theorem joinCRLF_append_blank (L : List (List Nat)) (b : List Nat) (hL : L ≠ []) :
    joinCRLF (L ++ [[], b]) = joinCRLF L ++ 13 :: 10 :: 13 :: 10 :: b := by
  match L with
  | [l] =>
    show joinCRLF (l :: [] :: [b]) = joinCRLF [l] ++ 13 :: 10 :: 13 :: 10 :: b
    rw [joinCRLF_cons_cons, joinCRLF_cons_cons, joinCRLF_single, joinCRLF_single]
    simp
  | l :: l2 :: rest =>
    have h1 : (l :: l2 :: rest) ++ [[], b] = l :: ((l2 :: rest) ++ [[], b]) := rfl
    have h2 : (l2 :: rest) ++ [[], b] = l2 :: (rest ++ [[], b]) := rfl
    rw [h1, h2, joinCRLF_cons_cons, ← h2,
        joinCRLF_append_blank (l2 :: rest) b (by simp), joinCRLF_cons_cons]
    simp

theorem allBytes_append (a b : List Nat) (ha : allBytes a) (hb : allBytes b) :
    allBytes (a ++ b) := by
  intro x hx
  rcases List.mem_append.mp hx with h | h
  · exact ha x h
  · exact hb x h

theorem crlfFree_append (a b : List Nat) (ha : crlfFree a) (hb : crlfFree b) :
    crlfFree (a ++ b) := by
  intro x hx
  rcases List.mem_append.mp hx with h | h
  · exact ha x h
  · exact hb x h

theorem allBytes_joinCRLF (L : List (List Nat)) (h : ∀ l ∈ L, allBytes l) :
    allBytes (joinCRLF L) := by
  match L with
  | [] => intro b hb; simp [joinCRLF] at hb
  | [l] => exact joinCRLF_single l ▸ h l (by simp)
  | l :: l2 :: rest =>
    rw [joinCRLF_cons_cons]
    intro b hb
    rcases List.mem_append.mp hb with hb | hb
    · rcases List.mem_append.mp hb with hb | hb
      · exact h l (by simp) b hb
      · simp only [List.mem_cons, List.mem_singleton, List.not_mem_nil] at hb
        rcases hb with h13 | h10 | hf
        · omega
        · omega
        · exact absurd hf (by simp)
    · exact allBytes_joinCRLF (l2 :: rest) (fun x hx => h x (by simp at hx ⊢; tauto)) b hb

theorem mem_if_singleton {α : Type} {c : Bool} {x l : α}
    (h : l ∈ (if c then [x] else [])) : l = x ∧ c = true := by
  by_cases hc : c = true
  · rw [if_pos hc] at h
    simp at h
    exact ⟨h, hc⟩
  · rw [if_neg hc] at h
    exact absurd h (by simp)

/-- Every header line emitted by `createRawMessage` is non-empty; it is
CR/LF-free and consists of bytes whenever the header values are. -/
theorem rawHeaderLines_clean (toAddr subject : List Nat)
    (cc bcc references inReplyTo : Option (List Nat))
    (hB : allBytes toAddr ∧ allBytes subject ∧ allBytes (cc.getD []) ∧
      allBytes (bcc.getD []) ∧ allBytes (references.getD []) ∧ allBytes (inReplyTo.getD []))
    (hH : crlfFree toAddr ∧ crlfFree subject ∧ crlfFree (cc.getD []) ∧
      crlfFree (bcc.getD []) ∧ crlfFree (references.getD []) ∧ crlfFree (inReplyTo.getD [])) :
    ∀ l ∈ rawHeaderLines toAddr subject cc bcc references inReplyTo,
      l ≠ [] ∧ crlfFree l ∧ allBytes l := by
  obtain ⟨hB1, hB2, hB3, hB4, hB5, hB6⟩ := hB
  obtain ⟨hH1, hH2, hH3, hH4, hH5, hH6⟩ := hH
  intro l hl
  unfold rawHeaderLines at hl
  rcases List.mem_append.mp hl with hl | hl
  · rcases List.mem_append.mp hl with hl | hl
    · rcases List.mem_append.mp hl with hl | hl
      · rcases List.mem_append.mp hl with hl | hl
        · simp only [List.mem_cons, List.mem_singleton, List.not_mem_nil] at hl
          rcases hl with h | h | h | h
          · subst h
            exact ⟨by simp [asc], crlfFree_append _ _ (by decide) hH1,
              allBytes_append _ _ (by decide) hB1⟩
          · subst h
            exact ⟨by simp [asc], crlfFree_append _ _ (by decide) hH2,
              allBytes_append _ _ (by decide) hB2⟩
          · subst h
            exact ⟨by simp [asc], by decide, by decide⟩
          · exact absurd h (by simp)
        · obtain ⟨h, -⟩ := mem_if_singleton hl
          subst h
          exact ⟨by simp [asc], crlfFree_append _ _ (by decide) hH3,
            allBytes_append _ _ (by decide) hB3⟩
      · obtain ⟨h, -⟩ := mem_if_singleton hl
        subst h
        exact ⟨by simp [asc], crlfFree_append _ _ (by decide) hH4,
          allBytes_append _ _ (by decide) hB4⟩
    · obtain ⟨h, -⟩ := mem_if_singleton hl
      subst h
      exact ⟨by simp [asc], crlfFree_append _ _ (by decide) hH5,
        allBytes_append _ _ (by decide) hB5⟩
  · obtain ⟨h, -⟩ := mem_if_singleton hl
    subst h
    exact ⟨by simp [asc], crlfFree_append _ _ (by decide) hH6,
      allBytes_append _ _ (by decide) hB6⟩

theorem rawHeaderLines_ne_nil (toAddr subject : List Nat)
    (cc bcc references inReplyTo : Option (List Nat)) :
    rawHeaderLines toAddr subject cc bcc references inReplyTo ≠ [] := by
  unfold rawHeaderLines
  simp

theorem rawHeaderLines_cases (toAddr subject : List Nat)
    (cc bcc references inReplyTo : Option (List Nat)) :
    ∀ l ∈ rawHeaderLines toAddr subject cc bcc references inReplyTo,
      l = asc "To: " ++ toAddr ∨ l = asc "Subject: " ++ subject ∨
      l = asc "Content-Type: text/plain; charset=utf-8" ∨
      l = asc "Cc: " ++ cc.getD [] ∨ l = asc "Bcc: " ++ bcc.getD [] ∨
      l = asc "References: " ++ references.getD [] ∨
      l = asc "In-Reply-To: " ++ inReplyTo.getD [] := by
  intro l hl
  unfold rawHeaderLines at hl
  rcases List.mem_append.mp hl with hl | hl
  · rcases List.mem_append.mp hl with hl | hl
    · rcases List.mem_append.mp hl with hl | hl
      · rcases List.mem_append.mp hl with hl | hl
        · simp only [List.mem_cons, List.mem_singleton, List.not_mem_nil] at hl
          rcases hl with h | h | h | h
          · exact Or.inl h
          · exact Or.inr (Or.inl h)
          · exact Or.inr (Or.inr (Or.inl h))
          · exact absurd h (by simp)
        · exact Or.inr (Or.inr (Or.inr (Or.inl (mem_if_singleton hl).1)))
      · exact Or.inr (Or.inr (Or.inr (Or.inr (Or.inl (mem_if_singleton hl).1))))
    · exact Or.inr (Or.inr (Or.inr (Or.inr (Or.inr (Or.inl (mem_if_singleton hl).1)))))
  · exact Or.inr (Or.inr (Or.inr (Or.inr (Or.inr (Or.inr (mem_if_singleton hl).1)))))

theorem rawHeaderLines_bytes (toAddr subject : List Nat)
    (cc bcc references inReplyTo : Option (List Nat))
    (hB : allBytes toAddr ∧ allBytes subject ∧ allBytes (cc.getD []) ∧
      allBytes (bcc.getD []) ∧ allBytes (references.getD []) ∧ allBytes (inReplyTo.getD [])) :
    ∀ l ∈ rawHeaderLines toAddr subject cc bcc references inReplyTo, allBytes l := by
  obtain ⟨hB1, hB2, hB3, hB4, hB5, hB6⟩ := hB
  intro l hl
  rcases rawHeaderLines_cases toAddr subject cc bcc references inReplyTo l hl with
    h | h | h | h | h | h | h
  · exact h ▸ allBytes_append _ _ (by decide) hB1
  · exact h ▸ allBytes_append _ _ (by decide) hB2
  · exact h ▸ (by decide)
  · exact h ▸ allBytes_append _ _ (by decide) hB3
  · exact h ▸ allBytes_append _ _ (by decide) hB4
  · exact h ▸ allBytes_append _ _ (by decide) hB5
  · exact h ▸ allBytes_append _ _ (by decide) hB6

theorem rawMessageText_bytes (toAddr subject body : List Nat)
    (cc bcc references inReplyTo : Option (List Nat))
    (hB : allBytes toAddr ∧ allBytes subject ∧ allBytes body ∧ allBytes (cc.getD []) ∧
      allBytes (bcc.getD []) ∧ allBytes (references.getD []) ∧ allBytes (inReplyTo.getD [])) :
    allBytes (rawMessageText toAddr subject body cc bcc references inReplyTo) := by
  obtain ⟨hB1, hB2, hB3, hB4, hB5, hB6, hB7⟩ := hB
  unfold rawMessageText
  apply allBytes_joinCRLF
  intro l hl
  rcases List.mem_append.mp hl with hl | hl
  · exact rawHeaderLines_bytes toAddr subject cc bcc references inReplyTo
      ⟨hB1, hB2, hB4, hB5, hB6, hB7⟩ l hl
  · simp only [List.mem_cons, List.mem_singleton, List.not_mem_nil] at hl
    rcases hl with h | h | h
    · subst h; intro b hb; exact absurd hb (by simp)
    · subst h; exact hB3
    · exact absurd h (by simp)

theorem plusToDash_b64enc_ne : ∀ s, s < 64 →
    plusToDash (b64enc s) ≠ 43 ∧ plusToDash (b64enc s) ≠ 47 ∧
    plusToDash (b64enc s) ≠ 61 := by decide

/-- C2 (amended): provided the header values (to, subject and any supplied
cc/bcc/references/in-reply-to) contain no CR or LF, base64url-decoding the
output of `createRawMessage` and splitting at the first blank line
reproduces exactly the CRLF-joined header lines carrying the original
header values, and the original body verbatim (the body itself may contain
anything, including blank lines). -/
theorem createRawMessage_roundtrip
    (toAddr subject body : List Nat)
    (cc bcc threadId references inReplyTo : Option (List Nat))
    (hB : allBytes toAddr ∧ allBytes subject ∧ allBytes body ∧ allBytes (cc.getD []) ∧
      allBytes (bcc.getD []) ∧ allBytes (references.getD []) ∧ allBytes (inReplyTo.getD []))
    (hH : crlfFree toAddr ∧ crlfFree subject ∧ crlfFree (cc.getD []) ∧
      crlfFree (bcc.getD []) ∧ crlfFree (references.getD []) ∧ crlfFree (inReplyTo.getD [])) :
    decodeBase64 (createRawMessage toAddr subject body cc bcc threadId references inReplyTo)
        = rawMessageText toAddr subject body cc bcc references inReplyTo
      ∧ splitAtBlank
          (decodeBase64 (createRawMessage toAddr subject body cc bcc threadId references inReplyTo))
        = some (joinCRLF (rawHeaderLines toAddr subject cc bcc references inReplyTo), body) := by
  obtain ⟨hB1, hB2, hB3, hB4, hB5, hB6, hB7⟩ := hB
  have hclean := rawHeaderLines_clean toAddr subject cc bcc references inReplyTo
    ⟨hB1, hB2, hB4, hB5, hB6, hB7⟩ hH
  have hm : allBytes (rawMessageText toAddr subject body cc bcc references inReplyTo) :=
    rawMessageText_bytes toAddr subject body cc bcc references inReplyTo
      ⟨hB1, hB2, hB3, hB4, hB5, hB6, hB7⟩
  have hdec : decodeBase64
      (createRawMessage toAddr subject body cc bcc threadId references inReplyTo)
      = rawMessageText toAddr subject body cc bcc references inReplyTo := by
    show decodeBase64 (stripEq ((b64encPad
      (rawMessageText toAddr subject body cc bcc references inReplyTo)).map plusToDash)) = _
    exact decodeBase64_encode _ hm
  refine ⟨hdec, ?_⟩
  rw [hdec]
  unfold rawMessageText
  rw [joinCRLF_append_blank _ body
    (rawHeaderLines_ne_nil toAddr subject cc bcc references inReplyTo)]
  apply splitAtBlank_append
  apply noBlank_joinCRLF _ (rawHeaderLines_ne_nil toAddr subject cc bcc references inReplyTo)
  intro l hl
  exact ⟨(hclean l hl).1, (hclean l hl).2.1⟩

/-- C2 counterexample: for a subject containing CRLFCRLF the round trip does
NOT reproduce the body — the blank line injected through the subject is found
first, so the parsed body is wrong (and the subject header is truncated). -/
theorem createRawMessage_roundtrip_cex :
    (splitAtBlank (decodeBase64 (createRawMessage (asc "t")
        (asc "A" ++ [13, 10, 13, 10] ++ asc "B") (asc "b")
        none none none none none))).map Prod.snd ≠ some (asc "b") := by decide

theorem createRawMessage_roundtrip_witness :
    decodeBase64 (createRawMessage (asc "t@x.com") (asc "Hi")
        (asc "Hello\r\n\r\nBye") (some (asc "c@x.com")) none none none none)
      = rawMessageText (asc "t@x.com") (asc "Hi")
        (asc "Hello\r\n\r\nBye") (some (asc "c@x.com")) none none none
    ∧ splitAtBlank (decodeBase64 (createRawMessage (asc "t@x.com") (asc "Hi")
        (asc "Hello\r\n\r\nBye") (some (asc "c@x.com")) none none none none))
      = some (joinCRLF (rawHeaderLines (asc "t@x.com") (asc "Hi")
          (some (asc "c@x.com")) none none none), asc "Hello\r\n\r\nBye") :=
  createRawMessage_roundtrip (asc "t@x.com") (asc "Hi") (asc "Hello\r\n\r\nBye")
    (some (asc "c@x.com")) none none none none (by decide) (by decide)

/-- C6 (amended): the raw message is the CRLF-join of the fixed header lines
(`To`, `Subject`, `Content-Type`, then `Cc`/`Bcc`/`References`/`In-Reply-To`
exactly when the corresponding argument is supplied and non-empty), a blank
line and the verbatim body, encoded as unpadded URL-safe base64; no character
of the output is `+`, `/` or `=`. -/
theorem createRawMessage_structure
    (toAddr subject body : List Nat)
    (cc bcc threadId references inReplyTo : Option (List Nat))
    (hB : allBytes toAddr ∧ allBytes subject ∧ allBytes body ∧ allBytes (cc.getD []) ∧
      allBytes (bcc.getD []) ∧ allBytes (references.getD []) ∧ allBytes (inReplyTo.getD [])) :
    createRawMessage toAddr subject body cc bcc threadId references inReplyTo
        = (b64encNoPad (rawMessageText toAddr subject body cc bcc references inReplyTo)).map
            plusToDash
      ∧ ∀ ch ∈ createRawMessage toAddr subject body cc bcc threadId references inReplyTo,
          ch ≠ 43 ∧ ch ≠ 47 ∧ ch ≠ 61 := by
  have hm : allBytes (rawMessageText toAddr subject body cc bcc references inReplyTo) :=
    rawMessageText_bytes toAddr subject body cc bcc references inReplyTo hB
  have h1 : createRawMessage toAddr subject body cc bcc threadId references inReplyTo
      = (b64encNoPad (rawMessageText toAddr subject body cc bcc references inReplyTo)).map
          plusToDash := by
    show stripEq ((b64encPad
      (rawMessageText toAddr subject body cc bcc references inReplyTo)).map plusToDash) = _
    rw [stripEq_map_plusToDash, stripEq_b64encPad _ hm]
  refine ⟨h1, ?_⟩
  intro ch hch
  rw [h1] at hch
  rcases List.mem_map.mp hch with ⟨e, he, rfl⟩
  obtain ⟨s, hs, rfl⟩ := b64encNoPad_mem _ hm e he
  exact plusToDash_b64enc_ne s hs

/-- C6 counterexample: a supplied-but-empty `cc` argument produces no `Cc`
header line — the output coincides with the output for an absent `cc`, and
the decoded message visibly contains no `Cc` header. -/
theorem createRawMessage_cc_empty_cex :
    createRawMessage (asc "t") (asc "s") (asc "b") (some []) none none none none
        = createRawMessage (asc "t") (asc "s") (asc "b") none none none none none
      ∧ decodeBase64 (createRawMessage (asc "t") (asc "s") (asc "b") (some []) none none none none)
        = asc "To: t\r\nSubject: s\r\nContent-Type: text/plain; charset=utf-8\r\n\r\nb" := by
  decide

theorem createRawMessage_structure_witness :
    createRawMessage (asc "t@x.com") (asc "Hi") (asc "Hello") none none none none none
        = (b64encNoPad (rawMessageText (asc "t@x.com") (asc "Hi") (asc "Hello")
            none none none none)).map plusToDash
      ∧ ∀ ch ∈ createRawMessage (asc "t@x.com") (asc "Hi") (asc "Hello") none none none none none,
          ch ≠ 43 ∧ ch ≠ 47 ∧ ch ≠ 61 :=
  createRawMessage_structure (asc "t@x.com") (asc "Hi") (asc "Hello")
    none none none none none (by decide)

/-! ### MIME part trees (`gmail_v1.Schema$MessagePart`) -/

/-- The `body` field of a MIME part: optional base64url data, optional
attachment id, optional size. -/
structure PartBody where
  attachmentId : Option (List Nat)
  size : Option Int
  data : Option (List Nat)
deriving Repr, DecidableEq

/-- A node of a message payload tree: `mimeType`, `filename`, `body` and
child `parts`, all optional as in the API schema. -/
inductive MsgPart where
  | mk (mimeType : Option (List Nat)) (filename : Option (List Nat))
       (body : Option PartBody) (parts : Option (List MsgPart))

def MsgPart.mimeType : MsgPart → Option (List Nat)
  | .mk mt _ _ _ => mt

def MsgPart.filename : MsgPart → Option (List Nat)
  | .mk _ fn _ _ => fn

def MsgPart.body : MsgPart → Option PartBody
  | .mk _ _ bd _ => bd

def MsgPart.parts : MsgPart → Option (List MsgPart)
  | .mk _ _ _ ps => ps

/-- `payload.body?.data` under truthiness: the data string when present and
non-empty, else the empty string. -/
def partData (bd : Option PartBody) : List Nat :=
  match bd with
  | none => []
  | some b => b.data.getD []

/-- One pass of the child loops in `getMessageBody`: the inline data of the
first child with the given mimeType and (truthy) inline data. -/
def findMT (mt : List Nat) : List MsgPart → Option (List Nat)
  | [] => none
  | c :: cs =>
    if c.mimeType = some mt ∧ partData c.body ≠ [] then some (partData c.body)
    else findMT mt cs

mutual

/-- Source `getMessageBody` (src/index.ts:626-651) on a present payload:
inline data wins; otherwise first text/plain child with data, then first
text/html child with data, then the first non-empty recursive resolution. -/
def bodyOfPart : MsgPart → List Nat
  | .mk _ _ bd ps =>
    if partData bd ≠ [] then decodeBase64 (partData bd)
    else
      match ps with
      | none => []
      | some children =>
        match findMT (asc "text/plain") children with
        | some d => decodeBase64 d
        | none =>
          match findMT (asc "text/html") children with
          | some d => decodeBase64 d
          | none => firstNested children

/-- The third pass of `getMessageBody`: depth-first over the children, first
non-empty nested body wins. -/
def firstNested : List MsgPart → List Nat
  | [] => []
  | c :: cs =>
    let nested := bodyOfPart c
    if nested ≠ [] then nested else firstNested cs

end

/-- Source `getMessageBody`, including the `!payload` guard. -/
def getMessageBody : Option MsgPart → List Nat
  | none => []
  | some p => bodyOfPart p

mutual

/-- No part of this subtree carries (truthy) inline body data. -/
def noInlineP : MsgPart → Bool
  | .mk _ _ bd ps =>
    (partData bd).isEmpty &&
    (match ps with
     | none => true
     | some children => noInlineL children)

def noInlineL : List MsgPart → Bool
  | [] => true
  | c :: cs => noInlineP c && noInlineL cs

end

theorem findMT_of_noInline (mt : List Nat) (ch : List MsgPart)
    (h : noInlineL ch = true) : findMT mt ch = none := by
  match ch with
  | [] => rfl
  | c :: cs =>
    rw [noInlineL] at h
    simp only [Bool.and_eq_true] at h
    have hd : partData c.body = [] := by
      match c with
      | .mk mt' fn bd ps =>
        have h1 := h.1
        rw [noInlineP.eq_def] at h1
        simp only [Bool.and_eq_true, List.isEmpty_iff] at h1
        simpa [MsgPart.body] using h1.1
    rw [findMT, if_neg]
    · exact findMT_of_noInline mt cs h.2
    · intro hcon
      exact hcon.2 hd

mutual

theorem bodyOfPart_noInline (p : MsgPart) (h : noInlineP p = true) :
    bodyOfPart p = [] := by
  match p with
  | .mk mt fn bd none =>
    rw [noInlineP.eq_def] at h
    simp only [Bool.and_eq_true, List.isEmpty_iff] at h
    rw [bodyOfPart, if_neg (by simp [h.1])]
  | .mk mt fn bd (some children) =>
    rw [noInlineP.eq_def] at h
    simp only [Bool.and_eq_true, List.isEmpty_iff] at h
    rw [bodyOfPart, if_neg (by simp [h.1])]
    rw [findMT_of_noInline _ _ h.2, findMT_of_noInline _ _ h.2]
    exact firstNested_noInline children h.2

theorem firstNested_noInline (l : List MsgPart) (h : noInlineL l = true) :
    firstNested l = [] := by
  match l with
  | [] => rfl
  | c :: cs =>
    rw [noInlineL] at h
    simp only [Bool.and_eq_true] at h
    rw [firstNested]
    simp only [bodyOfPart_noInline c h.1]
    exact firstNested_noInline cs h.2

end

theorem bodyOfPart_eq (mt fn : Option (List Nat)) (bd : Option PartBody)
    (ps : Option (List MsgPart)) :
    bodyOfPart (.mk mt fn bd ps) =
      if partData bd ≠ [] then decodeBase64 (partData bd)
      else
        match ps with
        | none => []
        | some children =>
          match findMT (asc "text/plain") children with
          | some d => decodeBase64 d
          | none =>
            match findMT (asc "text/html") children with
            | some d => decodeBase64 d
            | none => firstNested children := by
  rw [bodyOfPart.eq_def]

/-- C1: body resolution on a MIME part tree.  A root with (truthy) inline
data yields its base64url-decoded text; otherwise, with children present,
the first text/plain child with inline data wins, else the first text/html
child with inline data, else the first non-empty depth-first recursive
resolution (`firstNested`); a missing payload, a childless dataless part,
and a tree with no inline data anywhere all yield the empty string. -/
theorem getMessageBody_spec (p : MsgPart) :
    (partData p.body ≠ [] →
       getMessageBody (some p) = decodeBase64 (partData p.body))
  ∧ (partData p.body = [] → p.parts = none → getMessageBody (some p) = [])
  ∧ (∀ children, partData p.body = [] → p.parts = some children →
       (∀ d, findMT (asc "text/plain") children = some d →
          getMessageBody (some p) = decodeBase64 d)
     ∧ (findMT (asc "text/plain") children = none →
        ∀ d, findMT (asc "text/html") children = some d →
          getMessageBody (some p) = decodeBase64 d)
     ∧ (findMT (asc "text/plain") children = none →
        findMT (asc "text/html") children = none →
          getMessageBody (some p) = firstNested children))
  ∧ (noInlineP p = true → getMessageBody (some p) = [])
  ∧ getMessageBody none = [] := by
  match p with
  | .mk mt fn bd ps =>
    refine ⟨?_, ?_, ?_, ?_, rfl⟩
    · intro hne
      simp only [MsgPart.body] at hne
      show bodyOfPart _ = _
      rw [bodyOfPart_eq, if_pos hne]
      simp [MsgPart.body]
    · intro hd hps
      simp only [MsgPart.body] at hd
      simp only [MsgPart.parts] at hps
      subst hps
      show bodyOfPart _ = _
      rw [bodyOfPart_eq, if_neg (by simp [hd])]
    · intro children hd hps
      simp only [MsgPart.body] at hd
      simp only [MsgPart.parts] at hps
      subst hps
      refine ⟨?_, ?_, ?_⟩
      · intro d hfind
        show bodyOfPart _ = _
        rw [bodyOfPart_eq, if_neg (by simp [hd])]
        show (match findMT (asc "text/plain") children with
          | some d => decodeBase64 d
          | none =>
            match findMT (asc "text/html") children with
            | some d => decodeBase64 d
            | none => firstNested children) = _
        rw [hfind]
      · intro hnone d hfind
        show bodyOfPart _ = _
        rw [bodyOfPart_eq, if_neg (by simp [hd])]
        show (match findMT (asc "text/plain") children with
          | some d => decodeBase64 d
          | none =>
            match findMT (asc "text/html") children with
            | some d => decodeBase64 d
            | none => firstNested children) = _
        rw [hnone, hfind]
      · intro hnone hnone2
        show bodyOfPart _ = _
        rw [bodyOfPart_eq, if_neg (by simp [hd])]
        show (match findMT (asc "text/plain") children with
          | some d => decodeBase64 d
          | none =>
            match findMT (asc "text/html") children with
            | some d => decodeBase64 d
            | none => firstNested children) = _
        rw [hnone, hnone2]
    · intro hno
      exact bodyOfPart_noInline _ hno

theorem getMessageBody_spec_witness :
    partData (MsgPart.mk none none none (some
        [MsgPart.mk (some (asc "text/html")) none
           (some ⟨none, none, some (asc "aHRtbA")⟩) none,
         MsgPart.mk (some (asc "text/plain")) none
           (some ⟨none, none, some (asc "aGk")⟩) none])).body = []
    ∧ getMessageBody (some (MsgPart.mk none none none (some
        [MsgPart.mk (some (asc "text/html")) none
           (some ⟨none, none, some (asc "aHRtbA")⟩) none,
         MsgPart.mk (some (asc "text/plain")) none
           (some ⟨none, none, some (asc "aGk")⟩) none])))
      = decodeBase64 (asc "aGk") :=
  ⟨by decide,
   ((getMessageBody_spec (MsgPart.mk none none none (some
        [MsgPart.mk (some (asc "text/html")) none
           (some ⟨none, none, some (asc "aHRtbA")⟩) none,
         MsgPart.mk (some (asc "text/plain")) none
           (some ⟨none, none, some (asc "aGk")⟩) none]))).2.2.1
      [MsgPart.mk (some (asc "text/html")) none
           (some ⟨none, none, some (asc "aHRtbA")⟩) none,
       MsgPart.mk (some (asc "text/plain")) none
           (some ⟨none, none, some (asc "aGk")⟩) none]
      (by decide) rfl).1 (asc "aGk") (by decide)⟩

/-! ### Attachment enumeration (`getAttachments`, src/index.ts:1145-1166) -/

/-- One attachment entry: id, filename, mimeType, size. -/
structure Attachment where
  id : List Nat
  filename : List Nat
  mimeType : List Nat
  size : Int
deriving Repr, DecidableEq

/-- `payload.body?.attachmentId` under truthiness. -/
def partAttId (bd : Option PartBody) : List Nat :=
  match bd with
  | none => []
  | some b => b.attachmentId.getD []

/-- `payload.body.size || 0`. -/
def partSize (bd : Option PartBody) : Int :=
  match bd with
  | none => 0
  | some b => b.size.getD 0

/-- `payload.mimeType || "application/octet-stream"` (a falsy — absent or
empty — mimeType defaults to the generic binary type). -/
def mimeTypeOrDefault (mt : Option (List Nat)) : List Nat :=
  if (mt.getD []).isEmpty then asc "application/octet-stream" else mt.getD []

/-- The attachment entry a single part contributes: present iff the part
carries both a (truthy) attachment id and a (truthy) filename. -/
def attEntry (p : MsgPart) : Option Attachment :=
  if partAttId p.body ≠ [] ∧ p.filename.getD [] ≠ [] then
    some ⟨partAttId p.body, p.filename.getD [], mimeTypeOrDefault p.mimeType,
      partSize p.body⟩
  else none

mutual

/-- Source `getAttachments` on a present payload: push this part's entry if
it qualifies, then recurse into all children in order. -/
def attsOfPart : MsgPart → List Attachment
  | .mk mt fn bd ps =>
    (if partAttId bd ≠ [] ∧ fn.getD [] ≠ [] then
      [⟨partAttId bd, fn.getD [], mimeTypeOrDefault mt, partSize bd⟩]
     else [])
    ++ (match ps with
        | none => []
        | some children => attsOfList children)

def attsOfList : List MsgPart → List Attachment
  | [] => []
  | c :: cs => attsOfPart c ++ attsOfList cs

end

/-- Source `getAttachments`, including the `!payload` guard. -/
def getAttachments : Option MsgPart → List Attachment
  | none => []
  | some p => attsOfPart p

mutual

/-- Pre-order traversal of a part tree: the node itself, then its children
left to right, recursively. -/
def preorder : MsgPart → List MsgPart
  | .mk mt fn bd ps =>
    .mk mt fn bd ps ::
    (match ps with
     | none => []
     | some children => preorderList children)

def preorderList : List MsgPart → List MsgPart
  | [] => []
  | c :: cs => preorder c ++ preorderList cs

end

theorem attEntry_mk (mt fn : Option (List Nat)) (bd : Option PartBody)
    (ps : Option (List MsgPart)) :
    attEntry (.mk mt fn bd ps) =
      if partAttId bd ≠ [] ∧ fn.getD [] ≠ [] then
        some ⟨partAttId bd, fn.getD [], mimeTypeOrDefault mt, partSize bd⟩
      else none := rfl

mutual

theorem attsOfPart_eq_preorder (p : MsgPart) :
    attsOfPart p = (preorder p).filterMap attEntry := by
  match p with
  | .mk mt fn bd none =>
    rw [attsOfPart.eq_def, preorder.eq_def]
    show (if partAttId bd ≠ [] ∧ fn.getD [] ≠ [] then
        [⟨partAttId bd, fn.getD [], mimeTypeOrDefault mt, partSize bd⟩] else []) ++ []
      = List.filterMap attEntry [MsgPart.mk mt fn bd none]
    rw [List.append_nil, List.filterMap_cons, attEntry_mk]
    split
    · rfl
    · rfl
  | .mk mt fn bd (some children) =>
    rw [attsOfPart.eq_def, preorder.eq_def]
    show (if partAttId bd ≠ [] ∧ fn.getD [] ≠ [] then
        [⟨partAttId bd, fn.getD [], mimeTypeOrDefault mt, partSize bd⟩] else [])
        ++ attsOfList children
      = List.filterMap attEntry
          (MsgPart.mk mt fn bd (some children) :: preorderList children)
    rw [List.filterMap_cons, attEntry_mk, attsOfList_eq_preorder children]
    split
    · rfl
    · rfl

theorem attsOfList_eq_preorder (l : List MsgPart) :
    attsOfList l = (preorderList l).filterMap attEntry := by
  match l with
  | [] => rfl
  | c :: cs =>
    rw [attsOfList, preorderList, List.filterMap_append,
        attsOfPart_eq_preorder c, attsOfList_eq_preorder cs]

end

/-- C7: the attachment enumerator returns exactly the parts carrying both a
(truthy) attachment id and a (truthy) filename, in pre-order traversal order
(a node before its children, children in order, recursion independent of
whether the node qualified); a missing mimeType defaults to
application/octet-stream and a missing size defaults to zero. -/
theorem getAttachments_spec (p : MsgPart) :
    getAttachments (some p) = (preorder p).filterMap attEntry
  ∧ getAttachments none = []
  ∧ (∀ fn aid : List Nat, ∀ sz : Option Int, ∀ ps : Option (List MsgPart),
      aid ≠ [] → fn ≠ [] →
      attEntry (MsgPart.mk none (some fn) (some ⟨some aid, sz, none⟩) ps)
        = some ⟨aid, fn, asc "application/octet-stream", sz.getD 0⟩)
  ∧ (∀ mt fn aid : List Nat, ∀ ps : Option (List MsgPart),
      aid ≠ [] → fn ≠ [] → mt ≠ [] →
      attEntry (MsgPart.mk (some mt) (some fn) (some ⟨some aid, none, none⟩) ps)
        = some ⟨aid, fn, mt, 0⟩) := by
  refine ⟨attsOfPart_eq_preorder p, rfl, ?_, ?_⟩
  · intro fn aid sz ps ha hf
    rw [attEntry_mk, if_pos]
    · simp [partAttId, partSize, mimeTypeOrDefault]
    · exact ⟨by simpa [partAttId] using ha, by simpa using hf⟩
  · intro mt fn aid ps ha hf hm
    rw [attEntry_mk, if_pos]
    · simp [partAttId, partSize, mimeTypeOrDefault, hm]
    · exact ⟨by simpa [partAttId] using ha, by simpa using hf⟩

theorem getAttachments_spec_witness :
    getAttachments (some (MsgPart.mk (some (asc "multipart/mixed"))
        (some (asc "a.pdf")) (some ⟨some (asc "id1"), some 10, none⟩)
        (some [MsgPart.mk (some (asc "multipart/alternative")) none none
          (some [MsgPart.mk none (some (asc "b.png"))
            (some ⟨some (asc "id2"), none, none⟩) none])])))
      = (preorder (MsgPart.mk (some (asc "multipart/mixed"))
        (some (asc "a.pdf")) (some ⟨some (asc "id1"), some 10, none⟩)
        (some [MsgPart.mk (some (asc "multipart/alternative")) none none
          (some [MsgPart.mk none (some (asc "b.png"))
            (some ⟨some (asc "id2"), none, none⟩) none])]))).filterMap attEntry
    ∧ attEntry (MsgPart.mk none (some (asc "b.png"))
        (some ⟨some (asc "id2"), none, none⟩) none)
      = some ⟨asc "id2", asc "b.png", asc "application/octet-stream", 0⟩
    ∧ getAttachments (some (MsgPart.mk (some (asc "multipart/mixed"))
        (some (asc "a.pdf")) (some ⟨some (asc "id1"), some 10, none⟩)
        (some [MsgPart.mk (some (asc "multipart/alternative")) none none
          (some [MsgPart.mk none (some (asc "b.png"))
            (some ⟨some (asc "id2"), none, none⟩) none])])))
      = [⟨asc "id1", asc "a.pdf", asc "multipart/mixed", 10⟩,
         ⟨asc "id2", asc "b.png", asc "application/octet-stream", 0⟩] :=
  ⟨(getAttachments_spec (MsgPart.mk (some (asc "multipart/mixed"))
        (some (asc "a.pdf")) (some ⟨some (asc "id1"), some 10, none⟩)
        (some [MsgPart.mk (some (asc "multipart/alternative")) none none
          (some [MsgPart.mk none (some (asc "b.png"))
            (some ⟨some (asc "id2"), none, none⟩) none])]))).1,
   (getAttachments_spec (MsgPart.mk none none none none)).2.2.1
      (asc "b.png") (asc "id2") none none (by decide) (by decide),
   by decide⟩

/-! ### Reply composition (`replyToMessage`, src/index.ts:948-1000) -/

/-- Source reply-subject rule: `subject.startsWith("Re:") ? subject : `Re:
${subject}``.  Note the prefix tested is `Re:` with no trailing space. -/
def replySubject (subject : List Nat) : List Nat :=
  if (asc "Re:").isPrefixOf subject then subject else asc "Re: " ++ subject

/-- `String.prototype.split(",")` (no trimming; an empty string yields one
empty entry). -/
def splitComma : List Nat → List (List Nat)
  | [] => [[]]
  | c :: rest =>
    match splitComma rest with
    | [] => [[]]
    | g :: gs => if c = 44 then [] :: g :: gs else (c :: g) :: gs

/-- `Array.prototype.join(",")`. -/
def joinComma : List (List Nat) → List Nat
  | [] => []
  | [l] => l
  | l :: ls => l ++ [44] ++ joinComma ls

/-- Source reply-recipient rule: `replyAll ? [from, ...to.split(","),
...cc.split(",")].filter(Boolean).join(",") : from`. -/
def replyRecipients (fromAddr toAddr cc : List Nat) (replyAll : Bool) : List Nat :=
  if replyAll then
    joinComma (([fromAddr] ++ splitComma toAddr ++ splitComma cc).filter
      (fun s => !s.isEmpty))
  else fromAddr

/-- C4 counterexample: the source checks for the prefix `Re:` (without the
trailing space), so the subject `Re:Hi` — of which `Re: ` is NOT a prefix —
is left unchanged instead of being prefixed as the claim requires. -/
theorem replySubject_cex :
    ¬ (asc "Re: ").isPrefixOf (asc "Re:Hi")
    ∧ replySubject (asc "Re:Hi") ≠ asc "Re: " ++ asc "Re:Hi"
    ∧ replySubject (asc "Re:Hi") = asc "Re:Hi" := by decide

/-- C4 (amended): the reply subject prefixes the original subject with
`Re: ` unless the original already starts with `Re:` (a case-sensitive
check of the three-character prefix `Re:`, with no space and no
deduplication of repeated prefixes); in particular `Re: Hi` is left
unchanged and `Hi` becomes `Re: Hi`. -/
theorem replySubject_spec (subject : List Nat) :
    ((asc "Re:").isPrefixOf subject → replySubject subject = subject)
  ∧ (¬ (asc "Re:").isPrefixOf subject →
       replySubject subject = asc "Re: " ++ subject)
  ∧ replySubject (asc "Re: Hi") = asc "Re: Hi"
  ∧ replySubject (asc "Hi") = asc "Re: Hi"
  ∧ replySubject (asc "Re: Re: Hi") = asc "Re: Re: Hi" := by
  refine ⟨?_, ?_, by decide, by decide, by decide⟩
  · intro h
    unfold replySubject
    rw [if_pos h]
  · intro h
    unfold replySubject
    rw [if_neg h]

theorem replySubject_spec_witness :
    (asc "Re:").isPrefixOf (asc "Re: question")
    ∧ replySubject (asc "Re: question") = asc "Re: question" :=
  ⟨by decide, (replySubject_spec (asc "Re: question")).1 (by decide)⟩

/-- C5: with `replyAll` false the recipient is exactly the original From;
with `replyAll` true it is From followed by every comma-split entry of To
then of Cc, blanks discarded, no deduplication; including the spec's
concrete example and a duplicate-preserving example. -/
theorem replyRecipients_spec (fromAddr toAddr cc : List Nat) :
    replyRecipients fromAddr toAddr cc false = fromAddr
  ∧ replyRecipients fromAddr toAddr cc true
      = joinComma (([fromAddr] ++ splitComma toAddr ++ splitComma cc).filter
          (fun s => !s.isEmpty))
  ∧ replyRecipients (asc "a@x.com") (asc "b@x.com,c@x.com") (asc "") true
      = asc "a@x.com,b@x.com,c@x.com"
  ∧ replyRecipients (asc "a@x.com") (asc "a@x.com,,a@x.com") (asc "") true
      = asc "a@x.com,a@x.com,a@x.com" := by
  refine ⟨rfl, rfl, by decide, by decide⟩

/-! ### Tool dispatcher (`setupHandlers`, src/index.ts:671-757) -/

/-- One `content` entry of a call result. -/
structure TextContent where
  type : String
  text : String
deriving Repr, DecidableEq

/-- The envelope returned for every tool call.  Successful handlers in the
source return `{ content: [...] }` with no `isError` field, which protocol
consumers read as false; the embedding therefore carries an explicit
`isError : Bool` that is `false` on the success path. -/
structure CallResult where
  content : List TextContent
  isError : Bool
deriving Repr, DecidableEq

/-- The tool names of the dispatcher's switch statement, in source order. -/
def knownTools : List String :=
  ["gmail_list_messages", "gmail_get_message", "gmail_send_message",
   "gmail_search", "gmail_modify_labels", "gmail_list_labels",
   "gmail_trash_message", "gmail_mark_as_read", "gmail_mark_as_unread",
   "gmail_get_thread", "gmail_reply", "gmail_create_draft",
   "gmail_list_drafts", "gmail_get_draft", "gmail_update_draft",
   "gmail_send_draft", "gmail_delete_draft", "gmail_get_attachment",
   "gmail_list_attachments", "gmail_archive_message",
   "gmail_unarchive_message", "gmail_untrash_message",
   "gmail_delete_message", "gmail_create_label", "gmail_update_label",
   "gmail_delete_label", "gmail_get_profile", "gmail_forward_message",
   "gmail_star_message", "gmail_unstar_message", "gmail_batch_modify",
   "gmail_batch_delete"]

/-- The error envelope produced by the dispatcher's catch block:
`{ content: [{ type: "text", text: "Error: " + message }], isError: true }`. -/
def errEnvelope (msg : String) : CallResult :=
  { content := [{ type := "text", text := "Error: " ++ msg }], isError := true }

/-- The CallTool request handler: await `initializeGmail` (which may throw),
switch on the tool name (the default branch throws `Unknown tool: ` + name),
run the handler (which may throw); any throw from any of these is caught by
the surrounding try/catch and rewrapped as an error envelope.  `init` models
the session initializer's outcome and `handlers` the outcome of each named
handler (its content list on success, its thrown message on failure). -/
def callToolHandler (init : Except String Unit)
    (handlers : String → Except String (List TextContent))
    (name : String) : CallResult :=
  let attempt : Except String (List TextContent) :=
    match init with
    | .error e => .error e
    | .ok _ =>
      if knownTools.contains name then handlers name
      else .error ("Unknown tool: " ++ name)
  match attempt with
  | .ok content => { content := content, isError := false }
  | .error msg => errEnvelope msg

/-- C3 counterexample: a thrown message is NOT passed through as the literal
envelope text — the dispatcher prefixes it with `Error: `. -/
theorem callToolHandler_cex :
    callToolHandler (.ok ()) (fun _ => .error "boom") "gmail_search"
      ≠ { content := [{ type := "text", text := "boom" }], isError := true }
    ∧ callToolHandler (.ok ()) (fun _ => .error "boom") "gmail_search"
      = { content := [{ type := "text", text := "Error: boom" }], isError := true } := by
  constructor
  · intro h
    have := congrArg (fun r => r.content) h
    simp [callToolHandler, errEnvelope, knownTools] at this
  · rfl

/-- C3 (amended): the dispatcher is total — every call produces an envelope.
A successful handler's content is wrapped with `isError = false`; a thrown
handler error, a thrown initializer error, and the unknown-name branch are
all caught and rewrapped as `{ content: [{text: "Error: " + message}],
isError: true }`, the thrown message appearing verbatim after the fixed
`Error: ` prefix; no exception escapes the dispatcher. -/
theorem callToolHandler_spec (init : Except String Unit)
    (handlers : String → Except String (List TextContent)) (name : String) :
    (∀ content, init = .ok () → knownTools.contains name = true →
       handlers name = .ok content →
       callToolHandler init handlers name = { content := content, isError := false })
  ∧ (∀ msg, init = .ok () → knownTools.contains name = true →
       handlers name = .error msg →
       callToolHandler init handlers name = errEnvelope msg)
  ∧ (init = .ok () → knownTools.contains name = false →
       callToolHandler init handlers name = errEnvelope ("Unknown tool: " ++ name))
  ∧ (∀ msg, init = .error msg →
       callToolHandler init handlers name = errEnvelope msg) := by
  refine ⟨?_, ?_, ?_, ?_⟩
  · intro content hinit hknown hh
    subst hinit
    unfold callToolHandler
    have hmem : name ∈ knownTools := by simpa using hknown
    simp [hmem, hh]
  · intro msg hinit hknown hh
    subst hinit
    unfold callToolHandler
    have hmem : name ∈ knownTools := by simpa using hknown
    simp [hmem, hh]
  · intro hinit hknown
    subst hinit
    unfold callToolHandler
    have hmem : name ∉ knownTools := by simpa using hknown
    simp [hmem]
  · intro msg hinit
    subst hinit
    unfold callToolHandler
    simp

theorem callToolHandler_spec_witness :
    callToolHandler (.ok ()) (fun _ => .error "boom") "gmail_get_message"
      = errEnvelope "boom"
    ∧ callToolHandler (.ok ())
        (fun _ => .ok [{ type := "text", text := "[]" }]) "gmail_list_messages"
      = { content := [{ type := "text", text := "[]" }], isError := false }
    ∧ callToolHandler (.ok ()) (fun _ => .ok []) "gmail_frobnicate"
      = errEnvelope ("Unknown tool: " ++ "gmail_frobnicate")
    ∧ callToolHandler (.error "Token file not found") (fun _ => .ok []) "gmail_search"
      = errEnvelope "Token file not found" :=
  ⟨(callToolHandler_spec (.ok ()) (fun _ => .error "boom") "gmail_get_message").2.1
      "boom" rfl (by decide) rfl,
   (callToolHandler_spec (.ok ()) (fun _ => .ok [{ type := "text", text := "[]" }])
      "gmail_list_messages").1 [{ type := "text", text := "[]" }] rfl (by decide) rfl,
   (callToolHandler_spec (.ok ()) (fun _ => .ok []) "gmail_frobnicate").2.2.1
      rfl (by decide),
   (callToolHandler_spec (.error "Token file not found") (fun _ => .ok [])
      "gmail_search").2.2.2 "Token file not found" rfl⟩

/-! ### Label operations (src/index.ts:860-925, 1205-1220, 1372-1385) -/

/-- The request body each label operation sends to
`users.messages.modify`. -/
structure ModifyLabelsRequest where
  messageId : String
  addLabelIds : Option (List String)
  removeLabelIds : Option (List String)
deriving Repr, DecidableEq

/-- Source `modifyLabels`: forwards the argument bag's `addLabelIds` and
`removeLabelIds` unchanged. -/
def modifyLabels (messageId : String)
    (addLabelIds removeLabelIds : Option (List String)) : ModifyLabelsRequest :=
  ⟨messageId, addLabelIds, removeLabelIds⟩

/-- Source `markAsRead`: `modifyLabels({messageId, removeLabelIds: ["UNREAD"]})`. -/
def markAsRead (messageId : String) : ModifyLabelsRequest :=
  modifyLabels messageId none (some ["UNREAD"])

/-- Source `markAsUnread`: add `UNREAD`. -/
def markAsUnread (messageId : String) : ModifyLabelsRequest :=
  modifyLabels messageId (some ["UNREAD"]) none

/-- Source `archiveMessage`: remove `INBOX`. -/
def archiveMessage (messageId : String) : ModifyLabelsRequest :=
  modifyLabels messageId none (some ["INBOX"])

/-- Source `unarchiveMessage`: add `INBOX`. -/
def unarchiveMessage (messageId : String) : ModifyLabelsRequest :=
  modifyLabels messageId (some ["INBOX"]) none

/-- Source `starMessage`: add `STARRED`. -/
def starMessage (messageId : String) : ModifyLabelsRequest :=
  modifyLabels messageId (some ["STARRED"]) none

/-- Source `unstarMessage`: remove `STARRED`. -/
def unstarMessage (messageId : String) : ModifyLabelsRequest :=
  modifyLabels messageId none (some ["STARRED"])

/-- The upstream label-set semantics stipulated by the claim: apply the adds
(set union), then the removes (set difference); removing an absent label is
a no-op. -/
def applyDelta (labels : Finset String) (r : ModifyLabelsRequest) : Finset String :=
  (labels ∪ (r.addLabelIds.getD []).toFinset) \ (r.removeLabelIds.getD []).toFinset

/-- C8: each semantic label operation is exactly the generic modify-labels
primitive applied to its singleton delta and nothing else, and under set
semantics applying mark-read twice yields the same label set as applying it
once. -/
theorem labelOps_spec (messageId : String) :
    markAsRead messageId = modifyLabels messageId none (some ["UNREAD"])
  ∧ markAsUnread messageId = modifyLabels messageId (some ["UNREAD"]) none
  ∧ archiveMessage messageId = modifyLabels messageId none (some ["INBOX"])
  ∧ unarchiveMessage messageId = modifyLabels messageId (some ["INBOX"]) none
  ∧ starMessage messageId = modifyLabels messageId (some ["STARRED"]) none
  ∧ unstarMessage messageId = modifyLabels messageId none (some ["STARRED"])
  ∧ ∀ labels : Finset String,
      applyDelta (applyDelta labels (markAsRead messageId)) (markAsRead messageId)
        = applyDelta labels (markAsRead messageId) := by
  refine ⟨rfl, rfl, rfl, rfl, rfl, rfl, ?_⟩
  intro labels
  simp [applyDelta, markAsRead, modifyLabels, Finset.sdiff_idem]

/-! ### Listing, searching, drafts (src/index.ts:760-798, 853-858, 1026-1058) -/

/-- `(args.maxResults as number) || 10`: absent and `0` both become 10. -/
def orTen (o : Option Int) : Int :=
  match o with
  | none => 10
  | some v => if v = 0 then 10 else v

/-- One `{name?, value?}` message header. -/
structure MsgHeader where
  name : Option String
  value : Option String
deriving Repr, DecidableEq

/-- ASCII lower-casing of one character (the fragment of
`String.prototype.toLowerCase` relevant to header names). -/
def lowerChar (c : Char) : Char :=
  if 'A' ≤ c ∧ c ≤ 'Z' then Char.ofNat (c.toNat + 32) else c

/-- ASCII lower-casing of a string. -/
def lowerStr (s : String) : String := String.mk (s.toList.map lowerChar)

/-- Source `getHeader`: find the header whose name matches case-insensitively;
its value, or the empty string. -/
def getHeader (headers : Option (List MsgHeader)) (name : String) : String :=
  match (headers.getD []).find?
      (fun h => match h.name with
                | none => false
                | some n => lowerStr n = lowerStr name) with
  | some h => h.value.getD ""
  | none => ""

/-- A `{id, threadId}` entry of `users.messages.list`. -/
structure MsgRef where
  id : Option String
  threadId : Option String
deriving Repr, DecidableEq

/-- The metadata detail fetched per message. -/
structure MsgDetails where
  payloadHeaders : Option (List MsgHeader)
  snippet : Option String
  labelIds : Option (List String)
deriving Repr, DecidableEq

/-- One entry of the result array built by `listMessages`. -/
structure MsgSummary where
  id : Option String
  threadId : Option String
  fromHeader : String
  toHeader : String
  subject : String
  date : String
  snippet : Option String
  labelIds : Option (List String)
deriving Repr, DecidableEq

/-- The request `listMessages` sends to `users.messages.list`. -/
structure ListRequest where
  maxResults : Int
  q : Option String
  labelIds : Option (List String)
deriving Repr, DecidableEq

/-- The argument bag of `gmail_list_messages` / `gmail_search`. -/
structure ListArgs where
  maxResults : Option Int
  query : Option String
  labelIds : Option (List String)
deriving Repr, DecidableEq

/-- Source `listMessages`, with the two upstream calls supplied as oracles
(`listO` for `users.messages.list`, `getO` for the per-id metadata
`users.messages.get`): defaults `maxResults` with a falsy-or, issues the
list request, then builds one summary per returned message.  The result
envelope is the summary array (its JSON serialization in the source). -/
def listMessages (listO : ListRequest → List MsgRef) (getO : String → MsgDetails)
    (args : ListArgs) : List MsgSummary :=
  let maxResults := orTen args.maxResults
  let req : ListRequest := ⟨maxResults, args.query, args.labelIds⟩
  (listO req).map (fun msg =>
    let details := getO (msg.id.getD "")
    { id := msg.id, threadId := msg.threadId,
      fromHeader := getHeader details.payloadHeaders "From",
      toHeader := getHeader details.payloadHeaders "To",
      subject := getHeader details.payloadHeaders "Subject",
      date := getHeader details.payloadHeaders "Date",
      snippet := details.snippet, labelIds := details.labelIds })

/-- Source `searchMessages`: defaults `maxResults` itself, then delegates to
`listMessages` with `{ query, maxResults }` (no `labelIds`). -/
def searchMessages (listO : ListRequest → List MsgRef) (getO : String → MsgDetails)
    (args : ListArgs) : List MsgSummary :=
  listMessages listO getO ⟨some (orTen args.maxResults), args.query, none⟩

/-- A `{id}` entry of `users.drafts.list`. -/
structure DraftRef where
  id : Option String
deriving Repr, DecidableEq

/-- The detail fetched per draft. -/
structure DraftDetails where
  messageId : Option String
  payloadHeaders : Option (List MsgHeader)
  snippet : Option String
deriving Repr, DecidableEq

/-- One entry of the result array built by `listDrafts`. -/
structure DraftSummary where
  id : Option String
  messageId : Option String
  toHeader : String
  subject : String
  snippet : Option String
deriving Repr, DecidableEq

/-- Source `listDrafts`: defaults `maxResults` with a falsy-or, lists, then
builds one summary per draft. -/
def listDrafts (listO : Int → List DraftRef) (getO : String → DraftDetails)
    (maxResults : Option Int) : List DraftSummary :=
  (listO (orTen maxResults)).map (fun d =>
    let details := getO (d.id.getD "")
    { id := d.id, messageId := details.messageId,
      toHeader := getHeader details.payloadHeaders "To",
      subject := getHeader details.payloadHeaders "Subject",
      snippet := details.snippet })

theorem orTen_idem (o : Option Int) : orTen (some (orTen o)) = orTen o := by
  match o with
  | none => rfl
  | some v =>
    unfold orTen
    by_cases h : v = 0
    · simp [h]
    · simp [h]

/-- C9: `gmail_search` produces exactly the result envelope that
`gmail_list_messages` produces for the same query and maxResults with no
labelIds filter — `searchMessages` is a pure delegation to `listMessages`. -/
theorem searchMessages_eq_listMessages
    (listO : ListRequest → List MsgRef) (getO : String → MsgDetails)
    (args : ListArgs) :
    searchMessages listO getO args
      = listMessages listO getO ⟨args.maxResults, args.query, none⟩ := by
  unfold searchMessages listMessages
  rw [orTen_idem]

/-- C10: for `gmail_list_messages`, `gmail_search` and `gmail_list_drafts`,
`maxResults = 0` is indistinguishable from an absent `maxResults`: the
falsy-or default replaces both by 10 before the upstream list call. -/
theorem maxResults_zero_eq_absent
    (listO : ListRequest → List MsgRef) (getO : String → MsgDetails)
    (dlistO : Int → List DraftRef) (dgetO : String → DraftDetails)
    (q : Option String) (labels : Option (List String)) :
    listMessages listO getO ⟨some 0, q, labels⟩
      = listMessages listO getO ⟨none, q, labels⟩
  ∧ searchMessages listO getO ⟨some 0, q, labels⟩
      = searchMessages listO getO ⟨none, q, labels⟩
  ∧ listDrafts dlistO dgetO (some 0) = listDrafts dlistO dgetO none
  ∧ orTen (some 0) = 10 ∧ orTen none = 10 := by
  refine ⟨?_, ?_, ?_, rfl, rfl⟩
  · unfold listMessages
    rfl
  · unfold searchMessages
    rfl
  · unfold listDrafts
    rfl
